import Mathlib

/-!
Verification development for the real-time speech-to-text streaming client
(the TranscriptionService class of the frontend).

The definitions below are a shallow embedding of the TypeScript source:
float samples are modelled as rationals, byte buffers as lists of naturals,
and the controller as an explicit state-passing step function over a state
record mirroring the instance fields of the class.  JavaScript timers are
modelled by composing the scheduled handlers in their firing order, which
the source fixes by hardcoded delays (200 ms cleanup grace, 100 ms status
check, 1000 ms wait before a new session).
-/

namespace Transcription

/-! ### Constants (class statics of TranscriptionService) -/

def CHUNK_DURATION_MS : ℕ := 50

def SAMPLE_RATE : ℕ := 16000

def BYTES_PER_SAMPLE : ℕ := 2

def MAX_CHUNK_SIZE : ℕ := 32 * 1024

/-- maxRetries in startRecording: retry once. -/
def maxRetries : ℕ := 1

/-- samplesPerChunk = Math.floor((sampleRate * chunkDurationMs) / 1000). -/
def samplesPerChunk : ℕ := (SAMPLE_RATE * CHUNK_DURATION_MS) / 1000

/-- Grace delay between sending end_session and the deferred cleanup (ms). -/
def STOP_CLEANUP_DELAY_MS : ℕ := 200

/-- Delay of the deferred status check at the end of cleanup (ms). -/
def STATUS_DELAY_MS : ℕ := 100

/-- Wait inserted by startRecording after stopping a previous session (ms). -/
def NEW_SESSION_WAIT_MS : ℕ := 1000

/-! ### Resampler (resampleTo16kHz) -/

/-- Linear-interpolation resampler, mirroring resampleTo16kHz.  Float
arithmetic is modelled exactly over the rationals; Math.round is the
Mathlib round (floor of x + 1/2, ties toward positive infinity, as in
JavaScript); Math.floor and Math.ceil are the integer floor and ceiling. -/
def resampleTo16kHz (inputData : List ℚ) (inputSampleRate : ℕ) : List ℚ :=
  if inputSampleRate = SAMPLE_RATE then inputData
  else
    let ratio : ℚ := (inputSampleRate : ℚ) / (SAMPLE_RATE : ℚ)
    let outputLength : ℕ := (round ((inputData.length : ℚ) / ratio)).toNat
    (List.range outputLength).map (fun (i : ℕ) =>
      let sourceIndex : ℚ := (i : ℚ) * ratio
      let lower : ℕ := (⌊sourceIndex⌋).toNat
      let upper : ℕ := (⌈sourceIndex⌉).toNat
      let fraction : ℚ := sourceIndex - ⌊sourceIndex⌋
      if inputData.length ≤ upper then inputData.getD lower 0
      else inputData.getD lower 0 * (1 - fraction) + inputData.getD upper 0 * fraction)

/-! ### PCM16 encoder (convertToPCM16) -/

/-- Math.max(-1, Math.min(1, x)). -/
def clamp1 (x : ℚ) : ℚ := max (-1) (min 1 x)

/-- Truncation toward zero, the integer conversion DataView.setInt16
applies to a non-integral number. -/
def truncQ (q : ℚ) : ℤ := if 0 ≤ q then ⌊q⌋ else -⌊-q⌋

/-- The signed 16-bit value computed for one sample: clamp, scale negative
values by 0x8000 and non-negative ones by 0x7FFF, truncate. -/
def pcm16OfSample (x : ℚ) : ℤ :=
  let sample := clamp1 x
  truncQ (if sample < 0 then sample * 0x8000 else sample * 0x7FFF)

/-- The unsigned 16-bit storage pattern of a signed value in
twos-complement form, as stored by setInt16. -/
def uint16Pattern (v : ℤ) : ℕ := (v % 65536).toNat

/-- The two bytes setInt16 writes little-endian for one sample. -/
def sampleLEBytes (x : ℚ) : List ℕ :=
  let p := uint16Pattern (pcm16OfSample x)
  [p % 256, p / 256]

/-- convertToPCM16: a byte buffer of 2 bytes per sample, little-endian. -/
def convertToPCM16 (floatData : List ℚ) : List ℕ :=
  floatData.flatMap sampleLEBytes

/-- Read back a signed 16-bit integer from the first two little-endian
bytes of a buffer. -/
def readInt16LE (bytes : List ℕ) : ℤ :=
  let u := bytes.getD 0 0 + 256 * bytes.getD 1 0
  if u < 0x8000 then (u : ℤ) else (u : ℤ) - 0x10000

/-- The inverse scaling described by the specification: a negative code
divides by 0x8000, a non-negative one by 0x7FFF.  (The repository has no
decoder; this is the decoding the round-trip property quantifies over.) -/
def decodeSample (v : ℤ) : ℚ :=
  if v < 0 then (v : ℚ) / 0x8000 else (v : ℚ) / 0x7FFF

/-! ### Oversized-chunk splitter (sendPCMAudioChunk) -/

/-- The payload list sendPCMAudioChunk produces for one PCM buffer: a
buffer over the 32 KiB limit is split into Math.ceil(size/limit) slices
sent in loop order; otherwise the buffer is sent whole.  Nat ceiling
division (a + b - 1) / b is exactly Math.ceil(a / b) for a, b > 0. -/
def sendPCMAudioChunkMsgs (pcmData : List ℕ) : List (List ℕ) :=
  if MAX_CHUNK_SIZE < pcmData.length then
    let numberOfChunks := (pcmData.length + MAX_CHUNK_SIZE - 1) / MAX_CHUNK_SIZE
    (List.range numberOfChunks).map
      (fun i => (pcmData.drop (i * MAX_CHUNK_SIZE)).take MAX_CHUNK_SIZE)
  else [pcmData]

/-! ### Chunk buffer and framer (the onaudioprocess closure) -/

/-- One onaudioprocess accumulation step: append the resampled vector to
the buffer; if the total reaches the frame size, flatten, slice one frame
off the front and retain the remainder (kept as a single vector when
non-empty).  Returns the new buffer and the emitted frame, if any. -/
def framerStep (F : ℕ) (audioBuffer : List (List ℚ)) (resampledData : List ℚ) :
    List (List ℚ) × Option (List ℚ) :=
  let buf := audioBuffer ++ [resampledData]
  let totalSamples := (buf.map List.length).sum
  if F ≤ totalSamples then
    let combinedBuffer := buf.flatten
    let chunkToSend := combinedBuffer.take F
    let remainder := combinedBuffer.drop F
    (if 0 < remainder.length then [remainder] else [], some chunkToSend)
  else (buf, none)

/-- Run the framer over a sequence of resampled input vectors, starting
from a given buffer; returns the emitted frames in order and the final
retained buffer. -/
def framerRunAux (F : ℕ) (buf : List (List ℚ)) :
    List (List ℚ) → List (List ℚ) × List (List ℚ)
  | [] => ([], buf)
  | input :: rest =>
    match framerStep F buf input with
    | (newBuf, some frame) =>
      let r := framerRunAux F newBuf rest
      (frame :: r.1, r.2)
    | (newBuf, none) => framerRunAux F newBuf rest

/-- Run the framer from the empty buffer. -/
def framerRun (F : ℕ) (inputs : List (List ℚ)) : List (List ℚ) × List (List ℚ) :=
  framerRunAux F [] inputs

/-! ### Wire messages and callbacks -/

/-- TranscriptionResult.  Wire field names are snake_case
(transcript, is_partial, confidence, start_time, end_time, alternatives);
numeric fields are modelled as rationals. -/
structure TranscriptionResultM where
  transcript : String
  confidence : Option ℚ := none
  isPartial : Bool
  startTime : Option ℚ := none
  endTime : Option ℚ := none
  alternatives : Option (List String) := none
deriving DecidableEq

/-- TranscriptionResponse: an inbound backend message after JSON parsing.
The type field is an open string, as in the source interface. -/
structure TranscriptionResponse where
  type : String
  status : Option String := none
  result : Option TranscriptionResultM := none
  errorMessage : Option String := none
  sessionId : Option String := none
deriving DecidableEq

/-- TranscriptionConfig passed to startRecording (all fields optional). -/
structure TranscriptionConfig where
  languageCode : Option String := none
  sampleRate : Option ℕ := none
  enablePartialResults : Option Bool := none
deriving DecidableEq

/-- Outbound client messages (JSON envelopes sent on the websocket). -/
inductive ClientMsg where
  | config (languageCode : String) (sampleRate : ℕ) (enablePartialResults : Bool)
  | audioChunk (audioData : List ℕ)
  | endSession
deriving DecidableEq

/-- Observable effects of the controller: websocket sends and the four
callback channels (final result, live result, error, status). -/
inductive Output where
  | sent (m : ClientMsg)
  | finalResult (r : TranscriptionResultM)
  | partialResult (r : TranscriptionResultM)
  | errorCb (msg : String)
  | statusChange (status : String)
deriving DecidableEq

/-- WebSocket readyState values the source branches on. -/
inductive WsReady where
  | connecting
  | opened
  | closed
deriving DecidableEq

/-! ### Controller state (instance fields of TranscriptionService) -/

/-- The mutable instance fields of the class.  The mediaRecorder field is
omitted: the source only ever uses the AudioContext path, so it stays
null for the whole lifetime.  The closure-local retryCount of
startRecording is carried here so retry semantics are part of the state. -/
structure ServiceState where
  websocket : Option WsReady
  audioStream : Bool
  isRecording : Bool
  sessionId : Option String
  shouldReconnect : Bool
  hasProcessor : Bool
  hasAudioContext : Bool
  retryCount : ℕ
  audioBuffer : List (List ℚ)
deriving DecidableEq

/-- Constructor state: every handle null, every flag false. -/
def initState : ServiceState :=
  { websocket := none, audioStream := false, isRecording := false,
    sessionId := none, shouldReconnect := false, hasProcessor := false,
    hasAudioContext := false, retryCount := 0, audioBuffer := [] }

/-! ### Handlers, one per routine of the source -/

/-- handleWebSocketMessage: dispatch one inbound message by its type tag. -/
def handleWebSocketMessage (s : ServiceState) (data : TranscriptionResponse) :
    ServiceState × List Output :=
  if data.type = "session_started" then
    ({ s with sessionId := data.sessionId }, [])
  else if data.type = "transcription_result" then
    match data.result with
    | some result =>
      if result.isPartial then (s, [Output.partialResult result])
      else (s, [Output.finalResult result])
    | none => (s, [])
  else if data.type = "session_ended" then
    ({ s with shouldReconnect := false, isRecording := false },
     [Output.statusChange "stopped"])
  else if data.type = "error" then
    (s, [Output.errorCb (data.errorMessage.getD "Unknown transcription error")])
  else (s, [])

/-- The sends performed by sendPCMAudioChunk: each (sub-)chunk goes out
only while websocket.readyState is OPEN. -/
def sendPCMAudioChunk (s : ServiceState) (pcmData : List ℕ) : List Output :=
  if s.websocket = some WsReady.opened then
    (sendPCMAudioChunkMsgs pcmData).map (fun c => Output.sent (ClientMsg.audioChunk c))
  else []

/-- The onaudioprocess handler installed by setupAudioContext: bail out
when not recording, else resample, accumulate, and when a full frame is
available encode it and hand it to the send path. -/
def onAudioProcess (s : ServiceState) (inputData : List ℚ) (inputRate : ℕ) :
    ServiceState × List Output :=
  if s.isRecording = false then (s, [])
  else
    let resampledData := resampleTo16kHz inputData inputRate
    match framerStep samplesPerChunk s.audioBuffer resampledData with
    | (newBuf, some chunkToSend) =>
      let pcmData := convertToPCM16 chunkToSend
      ({ s with audioBuffer := newBuf }, sendPCMAudioChunk s pcmData)
    | (newBuf, none) => ({ s with audioBuffer := newBuf }, [])

/-- cleanup: disable reconnects, stop recording, release the audio graph
and the microphone, send end_session if the socket is still open, close
and null the socket, clear the session id.  The deferred 100 ms status
check is modelled separately by statusTimerStep. -/
def cleanupStep (s : ServiceState) : ServiceState × List Output :=
  let s := { s with shouldReconnect := false, isRecording := false,
                    hasProcessor := false, hasAudioContext := false,
                    audioStream := false }
  match s.websocket with
  | some ws =>
    let outs := if ws = WsReady.opened then [Output.sent ClientMsg.endSession] else []
    ({ s with websocket := none, sessionId := none }, outs)
  | none => ({ s with sessionId := none }, [])

/-- The deferred status check at the end of cleanup: emit stopped when
recording is off and the socket is gone. -/
def statusTimerStep (s : ServiceState) : ServiceState × List Output :=
  if s.isRecording = false ∧ s.websocket = none then
    (s, [Output.statusChange "stopped"])
  else (s, [])

/-- stopRecording, synchronous part: disable reconnects, leave recording
with a stopping status, then either send end_session (cleanup deferred by
the 200 ms grace timer) or, if the socket is not open, clean up at once. -/
def stopRecordingStep (s : ServiceState) : ServiceState × List Output :=
  let s := { s with shouldReconnect := false }
  let p :=
    if s.isRecording then
      ({ s with isRecording := false }, [Output.statusChange "stopping"])
    else (s, ([] : List Output))
  let s := p.1
  if s.websocket = some WsReady.opened then
    (s, p.2 ++ [Output.sent ClientMsg.endSession])
  else
    let q := cleanupStep s
    (q.1, p.2 ++ q.2)

/-- stopRecording together with its scheduled timers run to completion:
the 200 ms grace-period cleanup (when it was deferred) and the 100 ms
status check.  No inbound backend message is involved. -/
def stopSequence (s : ServiceState) : ServiceState × List Output :=
  let p := stopRecordingStep s
  if s.websocket = some WsReady.opened then
    let q := cleanupStep p.1
    let r := statusTimerStep q.1
    (r.1, p.2 ++ q.2 ++ r.2)
  else
    let r := statusTimerStep p.1
    (r.1, p.2 ++ r.2)

/-- websocket.onerror: retry (increment the budget counter, reconnect
after the fixed 1000 ms backoff) while intentional teardown has not begun,
recording is live and budget remains; otherwise surface the error. -/
def onErrorStep (s : ServiceState) : ServiceState × List Output :=
  if s.shouldReconnect = true ∧ s.isRecording = true ∧ s.retryCount < maxRetries then
    ({ s with retryCount := s.retryCount + 1 }, [])
  else
    (s, [Output.errorCb "Connection error occurred. Please check your network and try again."])

/-- websocket.onclose: code 1000 is a normal closure (no reconnect, just
cleanup); an abnormal closure retries under the same guard as onerror,
else cleans up. -/
def onCloseStep (s : ServiceState) (code : ℕ) : ServiceState × List Output :=
  if code = 1000 then
    cleanupStep { s with shouldReconnect := false }
  else if s.shouldReconnect = true ∧ s.isRecording = true ∧ s.retryCount < maxRetries then
    ({ s with retryCount := s.retryCount + 1 }, [])
  else
    cleanupStep s

/-- The successful body of attemptConnection: acquire the microphone,
create the websocket (readyState CONNECTING), and set up the audio graph,
which flips isRecording on and emits the recording status. -/
def attemptConnectionStep (s : ServiceState) : ServiceState × List Output :=
  let s := { s with audioStream := true, websocket := some WsReady.connecting }
  let s := { s with hasAudioContext := true, hasProcessor := true,
                    audioBuffer := [], isRecording := true }
  (s, [Output.statusChange "recording"])

/-- websocket.onopen: the socket reaches OPEN and the session config is
sent, with the source defaults for missing fields (vi-VN, 16000, partial
results enabled unless explicitly disabled). -/
def onOpenStep (s : ServiceState) (config : TranscriptionConfig) :
    ServiceState × List Output :=
  ({ s with websocket := some WsReady.opened },
   [Output.sent (ClientMsg.config (config.languageCode.getD "vi-VN")
      (config.sampleRate.getD 16000) (config.enablePartialResults.getD true))])

/-- startRecording finds a previous session active when any of
isRecording, websocket, audioStream is still set. -/
def sessionActive (s : ServiceState) : Bool :=
  s.isRecording || s.websocket.isSome || s.audioStream

/-- The state from which startRecording launches attemptConnection: when
a previous session is active, stopRecording plus its timers have run to
completion during the 1000 ms wait (the timers fire at 200 ms and 300 ms,
strictly inside the wait); the retry counter is fresh and reconnects are
enabled for the new session. -/
def preConnectState (s : ServiceState) : ServiceState :=
  if sessionActive s then
    { (stopSequence s).1 with retryCount := 0, shouldReconnect := true }
  else
    { s with retryCount := 0, shouldReconnect := true }

/-- startRecording (successful connection): tear down any previous
session, wait, then attempt the connection. -/
def startRecordingStep (s : ServiceState) : ServiceState × List Output :=
  let pre := if sessionActive s then (stopSequence s).2 else []
  let p := attemptConnectionStep (preConnectState s)
  (p.1, pre ++ p.2)

/-! ### Event semantics -/

/-- The occurrences the controller reacts to: API calls, websocket
events, audio-capture callbacks and the scheduled timers. -/
inductive Event where
  | startCall
  | connect
  | connectFail
  | wsOpen (config : TranscriptionConfig)
  | wsMessage (data : TranscriptionResponse)
  | wsError
  | wsClose (code : ℕ)
  | audio (inputData : List ℚ) (inputRate : ℕ)
  | stopCall
  | cleanupTimer
  | statusTimer
deriving DecidableEq

/-- One transition of the controller. connectFail models the catch branch
of attemptConnection (device or connect failure). -/
def step (s : ServiceState) : Event → ServiceState × List Output
  | Event.startCall => startRecordingStep s
  | Event.connect => attemptConnectionStep s
  | Event.connectFail =>
    if s.retryCount < maxRetries then ({ s with retryCount := s.retryCount + 1 }, [])
    else (s, [Output.errorCb "Failed to start recording: Unknown error"])
  | Event.wsOpen config => onOpenStep s config
  | Event.wsMessage data => handleWebSocketMessage s data
  | Event.wsError => onErrorStep s
  | Event.wsClose code => onCloseStep s code
  | Event.audio inputData inputRate => onAudioProcess s inputData inputRate
  | Event.stopCall => stopSequence s
  | Event.cleanupTimer => cleanupStep s
  | Event.statusTimer => statusTimerStep s

/-- Run a sequence of events, collecting all outputs in order. -/
def runEvents (s : ServiceState) : List Event → ServiceState × List Output
  | [] => (s, [])
  | e :: es =>
    let p := step s e
    let q := runEvents p.1 es
    (q.1, p.2 ++ q.2)

/-! ### Concrete states, messages and traces used by the theorems -/

/-- A controller state in the middle of a healthy recording session. -/
def recState : ServiceState :=
  { websocket := some WsReady.opened, audioStream := true, isRecording := true,
    sessionId := some "sess-1", shouldReconnect := true, hasProcessor := true,
    hasAudioContext := true, retryCount := 0, audioBuffer := [] }

/-- recState with the retry budget already spent. -/
def exhaustedState : ServiceState :=
  { recState with retryCount := 1 }

/-- A final transcription result message from the backend. -/
def finalMsg : TranscriptionResponse :=
  { type := "transcription_result",
    result := some { transcript := "xin chao", isPartial := false } }

/-- Recognizer for deliveries on the final-result callback. -/
def isFinalDelivery : Output → Bool
  | Output.finalResult _ => true
  | _ => false

/-- Recognizer for an inbound session_started message event. -/
def mentionsSessionStarted : Event → Bool
  | Event.wsMessage data => data.type == "session_started"
  | _ => false

/-- A fresh start followed by the socket opening and one 50 ms buffer of
silence at the native 16 kHz rate; the backend never says anything. -/
def noAckTrace : List Event :=
  [Event.startCall, Event.wsOpen {}, Event.audio (List.replicate 800 0) SAMPLE_RATE]

/-- The state right after a fresh startRecording succeeded. -/
def connState : ServiceState :=
  { websocket := some WsReady.connecting, audioStream := true, isRecording := true,
    sessionId := none, shouldReconnect := true, hasProcessor := true,
    hasAudioContext := true, retryCount := 0, audioBuffer := [] }

/-- connState after the socket reached OPEN. -/
def openState : ServiceState :=
  { connState with websocket := some WsReady.opened }

/-! ### Shared helper lemmas -/

/-- Concatenating the loop slices of sendPCMAudioChunk gives back the
prefix of the buffer up to n times the slice size. -/
lemma flatten_range_chunks (L n : ℕ) (xs : List ℕ) :
    ((List.range n).map (fun i => (xs.drop (i * L)).take L)).flatten = xs.take (n * L) := by
  induction n with
  | zero => simp
  | succ k ih =>
    rw [List.range_succ, List.map_append, List.flatten_append, ih, Nat.succ_mul,
      List.take_add]
    simp

/-- The clamp is the identity on samples already in the legal range. -/
lemma clamp1_eq {x : ℚ} (h1 : -1 ≤ x) (h2 : x ≤ 1) : clamp1 x = x := by
  rw [clamp1, min_eq_right h2, max_eq_right h1]

/-- The encoded sample always fits in a signed 16-bit integer. -/
lemma pcm16OfSample_range (x : ℚ) :
    -32768 ≤ pcm16OfSample x ∧ pcm16OfSample x ≤ 32767 := by
  have hs1 : -1 ≤ clamp1 x := le_max_left _ _
  have hs2 : clamp1 x ≤ 1 := max_le (by norm_num) (min_le_left _ _)
  rw [pcm16OfSample]
  by_cases hneg : clamp1 x < 0
  · rw [if_pos hneg, truncQ,
      if_neg (by intro hc; nlinarith : ¬ (0:ℚ) ≤ clamp1 x * 0x8000)]
    have hub : (⌊-(clamp1 x * 0x8000)⌋ : ℚ) ≤ -(clamp1 x * 0x8000) := Int.floor_le _
    have hnn : 0 ≤ ⌊-(clamp1 x * 0x8000)⌋ := Int.floor_nonneg.mpr (by nlinarith)
    have hle : ⌊-(clamp1 x * 0x8000)⌋ ≤ 32768 := by
      have h32 : -(clamp1 x * 0x8000) ≤ (32768 : ℚ) := by nlinarith
      calc ⌊-(clamp1 x * 0x8000)⌋ ≤ ⌊(32768 : ℚ)⌋ := Int.floor_le_floor h32
        _ = 32768 := by norm_num
    constructor <;> omega
  · rw [if_neg hneg, truncQ,
      if_pos (by nlinarith [not_lt.mp hneg] : (0:ℚ) ≤ clamp1 x * 0x7FFF)]
    have h0 : 0 ≤ ⌊clamp1 x * 0x7FFF⌋ := Int.floor_nonneg.mpr (by nlinarith [not_lt.mp hneg])
    have h1 : ⌊clamp1 x * 0x7FFF⌋ ≤ 32767 := by
      have : clamp1 x * 0x7FFF ≤ 32767 := by nlinarith
      calc (⌊clamp1 x * 0x7FFF⌋ : ℤ) ≤ ⌊(32767 : ℚ)⌋ := Int.floor_le_floor this
        _ = 32767 := by norm_num
    constructor <;> omega

/-- Reading the two little-endian bytes back recovers the signed value. -/
lemma readInt16LE_sampleLEBytes (x : ℚ) :
    readInt16LE (sampleLEBytes x) = pcm16OfSample x := by
  obtain ⟨hlo, hhi⟩ := pcm16OfSample_range x
  rw [sampleLEBytes, readInt16LE]
  simp only [uint16Pattern, List.getD_cons_zero, List.getD_cons_succ]
  rw [Nat.mod_add_div ((pcm16OfSample x % 65536).toNat) 256]
  split <;> omega

/-! ### Claim C5: resampler output length and passthrough -/

/-- Claim C5: for every source rate R > 0 and the fixed target rate
T = 16000, resampling an input of N samples yields round(N multiplied by
T / R) output samples, within 1; and when R = T the operation is a no-op
passthrough returning the input unchanged.  (The output count is in fact
exactly the rounded value.) -/
theorem resample_output_length (inputData : List ℚ) (R : ℕ) (hR : 0 < R) :
    (R = SAMPLE_RATE → resampleTo16kHz inputData R = inputData)
    ∧ |((resampleTo16kHz inputData R).length : ℤ)
        - round (((inputData.length : ℚ) * (SAMPLE_RATE : ℚ)) / (R : ℚ))| ≤ 1 := by
  refine ⟨fun h => by simp [resampleTo16kHz, h], ?_⟩
  by_cases h : R = SAMPLE_RATE
  · subst h
    have hU : ((inputData.length : ℚ) * (SAMPLE_RATE : ℚ)) / (SAMPLE_RATE : ℚ)
        = (inputData.length : ℚ) := by
      rw [mul_div_assoc, div_self (by norm_num [SAMPLE_RATE]), mul_one]
    rw [resampleTo16kHz, if_pos rfl, hU]
    simp
  · have hT : (0 : ℚ) < (SAMPLE_RATE : ℚ) := by norm_num [SAMPLE_RATE]
    have hRQ : (0 : ℚ) < (R : ℚ) := by exact_mod_cast hR
    have hratio : (0 : ℚ) < (R : ℚ) / (SAMPLE_RATE : ℚ) := div_pos hRQ hT
    have hnn : (0 : ℚ) ≤ (inputData.length : ℚ) / ((R : ℚ) / (SAMPLE_RATE : ℚ)) :=
      div_nonneg (by positivity) hratio.le
    have hr : 0 ≤ round ((inputData.length : ℚ) / ((R : ℚ) / (SAMPLE_RATE : ℚ))) := by
      rw [round_eq]
      exact Int.floor_nonneg.mpr (by linarith)
    have hlen : (resampleTo16kHz inputData R).length
        = (round ((inputData.length : ℚ) / ((R : ℚ) / (SAMPLE_RATE : ℚ)))).toNat := by
      rw [resampleTo16kHz, if_neg h]
      simp only [List.length_map, List.length_range]
    rw [hlen, Int.toNat_of_nonneg hr, div_div_eq_mul_div]
    simp

/-- Witness for C5 at three samples and R = 48000. -/
theorem resample_output_length_witness :
    0 < 48000
    ∧ ((48000 = SAMPLE_RATE → resampleTo16kHz [1, 2, 3] 48000 = [1, 2, 3])
        ∧ |((resampleTo16kHz [1, 2, 3] 48000).length : ℤ)
            - round (((([1, 2, 3] : List ℚ).length : ℚ) * (SAMPLE_RATE : ℚ)) / (48000 : ℚ))| ≤ 1) :=
  ⟨by norm_num, resample_output_length [1, 2, 3] 48000 (by norm_num)⟩

/-! ### Claim C4: oversized-buffer splitting -/

/-- Claim C4: for every PCM byte buffer of size S exceeding the payload
limit L = 32768 bytes, the send path emits exactly ceil(S/L) sub-chunk
messages, each of at most L bytes, in order, whose concatenation
reconstructs the original buffer exactly (so no byte is dropped and the
sub-chunks of one frame are a contiguous block, never interleaved). -/
theorem oversized_chunk_split (pcmData : List ℕ) (h : MAX_CHUNK_SIZE < pcmData.length) :
    (sendPCMAudioChunkMsgs pcmData).length
      = (pcmData.length + MAX_CHUNK_SIZE - 1) / MAX_CHUNK_SIZE
    ∧ (∀ c ∈ sendPCMAudioChunkMsgs pcmData, c.length ≤ MAX_CHUNK_SIZE)
    ∧ (sendPCMAudioChunkMsgs pcmData).flatten = pcmData := by
  rw [sendPCMAudioChunkMsgs, if_pos h]
  refine ⟨by simp, ?_, ?_⟩
  · intro c hc
    simp only [List.mem_map, List.mem_range] at hc
    obtain ⟨i, -, rfl⟩ := hc
    simp [List.length_take]
  · rw [flatten_range_chunks]
    apply List.take_of_length_le
    have h32 : MAX_CHUNK_SIZE = 32768 := by norm_num [MAX_CHUNK_SIZE]
    rw [h32]
    omega

/-- Witness for C4 at a 32769-byte buffer (split into two sub-chunks). -/
theorem oversized_chunk_split_witness :
    MAX_CHUNK_SIZE < (List.replicate 32769 (0 : ℕ)).length
    ∧ ((sendPCMAudioChunkMsgs (List.replicate 32769 (0 : ℕ))).length
        = ((List.replicate 32769 (0 : ℕ)).length + MAX_CHUNK_SIZE - 1) / MAX_CHUNK_SIZE
      ∧ (∀ c ∈ sendPCMAudioChunkMsgs (List.replicate 32769 (0 : ℕ)),
          c.length ≤ MAX_CHUNK_SIZE)
      ∧ (sendPCMAudioChunkMsgs (List.replicate 32769 (0 : ℕ))).flatten
          = List.replicate 32769 (0 : ℕ)) :=
  ⟨by rw [List.length_replicate, MAX_CHUNK_SIZE]; omega,
   oversized_chunk_split (List.replicate 32769 (0 : ℕ))
     (by rw [List.length_replicate, MAX_CHUNK_SIZE]; omega)⟩

/-! ### Claim C6: PCM16 encode/decode round-trip -/

/-- Claim C6: for every sample x in the interval from -1 to 1, encoding
to 16-bit PCM (clamp, scale negatives by 0x8000 and non-negatives by
0x7FFF, write little-endian) and decoding back by the inverse scaling
yields a value within one least-significant bit of x (bounded here by
the larger quantum 1/32767). -/
theorem pcm16_roundtrip (x : ℚ) (h1 : -1 ≤ x) (h2 : x ≤ 1) :
    |decodeSample (readInt16LE (convertToPCM16 [x])) - x| ≤ 1 / 32767 := by
  have hconv : convertToPCM16 [x] = sampleLEBytes x := by
    simp [convertToPCM16]
  rw [hconv, readInt16LE_sampleLEBytes, pcm16OfSample, clamp1_eq h1 h2]
  by_cases hx : x < 0
  · rw [if_pos hx, truncQ,
      if_neg (by intro hc; nlinarith : ¬ (0 : ℚ) ≤ x * 0x8000)]
    have hub : (⌊-(x * 0x8000)⌋ : ℚ) ≤ -(x * 0x8000) := Int.floor_le _
    have hlb : -(x * 0x8000) < ⌊-(x * 0x8000)⌋ + 1 := Int.lt_floor_add_one _
    have hm0 : 0 ≤ ⌊-(x * 0x8000)⌋ := Int.floor_nonneg.mpr (by nlinarith)
    by_cases hm : ⌊-(x * 0x8000)⌋ = 0
    · rw [hm] at hub hlb ⊢
      norm_num at hub hlb
      have hdec : decodeSample (-(0 : ℤ)) = 0 := by norm_num [decodeSample]
      rw [hdec, zero_sub, abs_neg, abs_of_nonpos hx.le]
      linarith
    · have hmpos : 0 < ⌊-(x * 0x8000)⌋ := lt_of_le_of_ne hm0 (Ne.symm hm)
      rw [decodeSample, if_pos (by exact_mod_cast neg_neg_iff_pos.mpr hmpos : (-⌊-(x * 0x8000)⌋ : ℤ) < 0)]
      push_cast
      rw [abs_le]
      constructor <;> nlinarith
  · rw [if_neg hx, truncQ,
      if_pos (by nlinarith [not_lt.mp hx] : (0 : ℚ) ≤ x * 0x7FFF)]
    have h0 : 0 ≤ ⌊x * 0x7FFF⌋ := Int.floor_nonneg.mpr (by nlinarith [not_lt.mp hx])
    rw [decodeSample, if_neg (by omega : ¬ (⌊x * 0x7FFF⌋ : ℤ) < 0)]
    have hub : (⌊x * 0x7FFF⌋ : ℚ) ≤ x * 0x7FFF := Int.floor_le _
    have hlb : x * 0x7FFF < ⌊x * 0x7FFF⌋ + 1 := Int.lt_floor_add_one _
    rw [abs_le]
    constructor <;> nlinarith

/-- Witness for C6 at x = 1/2. -/
theorem pcm16_roundtrip_witness :
    -1 ≤ (1 / 2 : ℚ) ∧ (1 / 2 : ℚ) ≤ 1
    ∧ |decodeSample (readInt16LE (convertToPCM16 [(1 / 2 : ℚ)])) - 1 / 2| ≤ 1 / 32767 :=
  ⟨by norm_num, by norm_num,
   pcm16_roundtrip (1 / 2) (by norm_num) (by norm_num)⟩

/-! ### Framer lemmas -/

/-- The retained buffer after an emission flattens to the remainder. -/
lemma flatten_singleton_if (l : List ℚ) :
    (if 0 < l.length then [l] else []).flatten = l := by
  cases l <;> simp

/-- framerStep when the accumulated total reaches the frame size. -/
lemma framerStep_emit (F : ℕ) (buf : List (List ℚ)) (input : List ℚ)
    (htot : F ≤ ((buf ++ [input]).map List.length).sum) :
    framerStep F buf input
      = (if 0 < ((buf.flatten ++ input).drop F).length
           then [(buf.flatten ++ input).drop F] else [],
         some ((buf.flatten ++ input).take F)) := by
  rw [framerStep]
  simp only [if_pos htot, List.flatten_append, List.flatten_cons, List.flatten_nil,
    List.append_nil]

/-- framerStep when the accumulated total is still short of a frame. -/
lemma framerStep_noemit (F : ℕ) (buf : List (List ℚ)) (input : List ℚ)
    (htot : ¬ F ≤ ((buf ++ [input]).map List.length).sum) :
    framerStep F buf input = (buf ++ [input], none) := by
  rw [framerStep]
  simp only [if_neg htot]

/-- The accumulated total is the flattened buffer length plus the input
length. -/
lemma framer_total_eq (buf : List (List ℚ)) (input : List ℚ) :
    ((buf ++ [input]).map List.length).sum = buf.flatten.length + input.length := by
  simp [List.length_flatten]

/-- framerRunAux on no further input returns the retained buffer. -/
lemma framerRunAux_nil (F : ℕ) (buf : List (List ℚ)) :
    framerRunAux F buf [] = ([], buf) := rfl

/-- framerRunAux unfolding when the first call emits a frame. -/
lemma framerRunAux_cons_emit (F : ℕ) (buf newBuf : List (List ℚ)) (input frame : List ℚ)
    (rest : List (List ℚ)) (h : framerStep F buf input = (newBuf, some frame)) :
    framerRunAux F buf (input :: rest)
      = (frame :: (framerRunAux F newBuf rest).1, (framerRunAux F newBuf rest).2) := by
  rw [framerRunAux, h]

/-- framerRunAux unfolding when the first call emits nothing. -/
lemma framerRunAux_cons_noemit (F : ℕ) (buf newBuf : List (List ℚ)) (input : List ℚ)
    (rest : List (List ℚ)) (h : framerStep F buf input = (newBuf, none)) :
    framerRunAux F buf (input :: rest) = framerRunAux F newBuf rest := by
  rw [framerRunAux, h]

/-- Invariant run of the framer: assuming the retained buffer is shorter
than a frame and every input vector is at most a frame long, the emitted
frames plus the final buffer are a permutation-free re-grouping of the
input, every frame is exactly F long, and the final buffer is again
shorter than a frame. -/
lemma framerRunAux_spec (F : ℕ) (inputs : List (List ℚ)) :
    ∀ buf : List (List ℚ), buf.flatten.length < F →
      (∀ x ∈ inputs, x.length ≤ F) →
      (framerRunAux F buf inputs).1.flatten ++ (framerRunAux F buf inputs).2.flatten
          = buf.flatten ++ inputs.flatten
      ∧ (∀ f ∈ (framerRunAux F buf inputs).1, f.length = F)
      ∧ (framerRunAux F buf inputs).2.flatten.length < F := by
  induction inputs with
  | nil =>
    intro buf hbuf _
    exact ⟨by simp [framerRunAux], by simp [framerRunAux], by
      simpa [framerRunAux] using hbuf⟩
  | cons input rest ih =>
    intro buf hbuf hlen
    have hin : input.length ≤ F := hlen input (by simp)
    have hrest : ∀ x ∈ rest, x.length ≤ F := fun x hx => hlen x (by simp [hx])
    by_cases htot : F ≤ ((buf ++ [input]).map List.length).sum
    · have hC : F ≤ (buf.flatten ++ input).length := by
        rw [List.length_append]
        rw [framer_total_eq] at htot
        exact htot
      have hdroplen : ((buf.flatten ++ input).drop F).length < F := by
        rw [List.length_drop, List.length_append]
        omega
      have hnewflat :
          (if 0 < ((buf.flatten ++ input).drop F).length
             then [(buf.flatten ++ input).drop F] else []).flatten
            = (buf.flatten ++ input).drop F := flatten_singleton_if _
      have hrun : framerRunAux F buf (input :: rest)
          = ((buf.flatten ++ input).take F ::
              (framerRunAux F
                (if 0 < ((buf.flatten ++ input).drop F).length
                   then [(buf.flatten ++ input).drop F] else []) rest).1,
             (framerRunAux F
                (if 0 < ((buf.flatten ++ input).drop F).length
                   then [(buf.flatten ++ input).drop F] else []) rest).2) := by
        rw [framerRunAux, framerStep_emit F buf input htot]
      obtain ⟨e1, e2, e3⟩ := ih
        (if 0 < ((buf.flatten ++ input).drop F).length
           then [(buf.flatten ++ input).drop F] else [])
        (by rw [hnewflat]; exact hdroplen) hrest
      rw [hrun]
      refine ⟨?_, ?_, e3⟩
      · rw [List.flatten_cons, List.append_assoc, e1, hnewflat, List.flatten_cons,
          ← List.append_assoc, List.take_append_drop, List.append_assoc]
      · intro f hf
        rcases List.mem_cons.mp hf with hf | hf
        · subst hf
          rw [List.length_take]
          omega
        · exact e2 f hf
    · have hrun : framerRunAux F buf (input :: rest)
          = framerRunAux F (buf ++ [input]) rest := by
        rw [framerRunAux, framerStep_noemit F buf input htot]
      have hbuf2 : (buf ++ [input]).flatten.length < F := by
        rw [List.length_flatten]
        exact not_le.mp htot
      obtain ⟨e1, e2, e3⟩ := ih (buf ++ [input]) hbuf2 hrest
      rw [hrun]
      refine ⟨?_, e2, e3⟩
      rw [e1]
      simp [List.flatten_append]

/-- The flattening of a list of F-length frames has length F times the
frame count. -/
lemma flatten_length_const (F : ℕ) :
    ∀ L : List (List ℚ), (∀ f ∈ L, f.length = F) → L.flatten.length = F * L.length := by
  intro L
  induction L with
  | nil => simp
  | cons a t ih =>
    intro h
    rw [List.flatten_cons, List.length_append, h a (by simp),
      ih (fun f hf => h f (by simp [hf])), List.length_cons, Nat.mul_succ]
    omega

/-! ### Claim C3: framer conservation (corrected) -/

/-- Counterexample to C3 as stated: a single onaudioprocess call carrying
1600 resampled samples (two full frames) emits only one 800-sample frame,
so the retained remainder holds 800 samples although N mod F
= 1600 mod 800 = 0.  The claim that the remainder always equals N mod F
fails because the handler slices at most one frame per call. -/
theorem framer_remainder_cex :
    (framerRun samplesPerChunk [List.replicate 1600 (0 : ℚ)]).2.flatten.length = 800
    ∧ 1600 % samplesPerChunk = 0
    ∧ (800 : ℕ) ≠ 0 := by
  have htot : samplesPerChunk ≤ ((([] : List (List ℚ)) ++ [List.replicate 1600 (0 : ℚ)]).map
      List.length).sum := by
    rw [framer_total_eq]
    rw [List.length_replicate]
    decide
  have hstep := framerStep_emit samplesPerChunk [] (List.replicate 1600 (0 : ℚ)) htot
  rw [List.flatten_nil, List.nil_append] at hstep
  rw [List.drop_replicate, List.take_replicate] at hstep
  rw [List.length_replicate] at hstep
  rw [(by decide : 1600 - samplesPerChunk = 800),
    (by decide : min samplesPerChunk 1600 = 800)] at hstep
  rw [if_pos (by norm_num : (0 : ℕ) < 800)] at hstep
  refine ⟨?_, by decide, by norm_num⟩
  rw [framerRun,
    framerRunAux_cons_emit samplesPerChunk [] [List.replicate 800 (0 : ℚ)]
      (List.replicate 1600 (0 : ℚ)) (List.replicate 800 (0 : ℚ)) [] hstep,
    framerRunAux_nil]
  rw [List.flatten_cons, List.flatten_nil, List.append_nil, List.length_replicate]

/-- Claim C3 (amended): across repeated Framer calls no sample is dropped
or duplicated (the emitted frames followed by the retained remainder are
exactly the concatenated input), every emitted frame has exactly
samplesPerChunk samples, and the retained remainder has exactly
N mod samplesPerChunk samples PROVIDED every single input vector carries
at most samplesPerChunk samples; the proviso is forced because the
handler emits at most one frame per call. -/
theorem framer_conservation (inputs : List (List ℚ))
    (h : ∀ x ∈ inputs, x.length ≤ samplesPerChunk) :
    (framerRun samplesPerChunk inputs).1.flatten
        ++ (framerRun samplesPerChunk inputs).2.flatten = inputs.flatten
    ∧ (∀ f ∈ (framerRun samplesPerChunk inputs).1, f.length = samplesPerChunk)
    ∧ (framerRun samplesPerChunk inputs).2.flatten.length
        = inputs.flatten.length % samplesPerChunk := by
  have hF : 0 < samplesPerChunk := by decide
  obtain ⟨e1, e2, e3⟩ := framerRunAux_spec samplesPerChunk inputs [] (by simpa) h
  rw [framerRun]
  refine ⟨by simpa using e1, e2, ?_⟩
  have hN : (framerRunAux samplesPerChunk [] inputs).1.flatten.length
      + (framerRunAux samplesPerChunk [] inputs).2.flatten.length
      = inputs.flatten.length := by
    have := congrArg List.length e1
    rw [List.length_append] at this
    simpa using this
  rw [flatten_length_const samplesPerChunk _ e2] at hN
  rw [← hN, Nat.mul_add_mod, Nat.mod_eq_of_lt e3]

/-- Witness for C3 (amended) on two one-sample calls: nothing is emitted
and the remainder is both samples, 2 = 2 mod 800. -/
theorem framer_conservation_witness :
    (∀ x ∈ [[(1 : ℚ)], [(2 : ℚ)]], x.length ≤ samplesPerChunk)
    ∧ ((framerRun samplesPerChunk [[(1 : ℚ)], [(2 : ℚ)]]).1.flatten
          ++ (framerRun samplesPerChunk [[(1 : ℚ)], [(2 : ℚ)]]).2.flatten
          = ([[(1 : ℚ)], [(2 : ℚ)]] : List (List ℚ)).flatten
      ∧ (∀ f ∈ (framerRun samplesPerChunk [[(1 : ℚ)], [(2 : ℚ)]]).1,
          f.length = samplesPerChunk)
      ∧ (framerRun samplesPerChunk [[(1 : ℚ)], [(2 : ℚ)]]).2.flatten.length
          = ([[(1 : ℚ)], [(2 : ℚ)]] : List (List ℚ)).flatten.length % samplesPerChunk) :=
  ⟨by decide, framer_conservation [[(1 : ℚ)], [(2 : ℚ)]] (by decide)⟩

/-! ### Claim C10: framer frames never trigger the split branch -/

/-- Every emitted frame is exactly F samples long. -/
lemma framerStep_some_length (F : ℕ) (buf : List (List ℚ)) (input : List ℚ)
    (newBuf : List (List ℚ)) (frame : List ℚ)
    (h : framerStep F buf input = (newBuf, some frame)) :
    frame.length = F := by
  by_cases htot : F ≤ ((buf ++ [input]).map List.length).sum
  · rw [framerStep_emit F buf input htot] at h
    have hframe : frame = (buf.flatten ++ input).take F := by
      have := congrArg Prod.snd h
      simpa using this.symm
    have hC : F ≤ (buf.flatten ++ input).length := by
      rw [List.length_append]
      rw [framer_total_eq] at htot
      exact htot
    rw [hframe, List.length_take]
    omega
  · rw [framerStep_noemit F buf input htot] at h
    simp at h

/-- Each sample encodes to BYTES_PER_SAMPLE bytes. -/
lemma convertToPCM16_length (floatData : List ℚ) :
    (convertToPCM16 floatData).length = BYTES_PER_SAMPLE * floatData.length := by
  induction floatData with
  | nil => simp [convertToPCM16]
  | cons x xs ih =>
    rw [convertToPCM16, List.flatMap_cons, List.length_append, ← convertToPCM16, ih]
    rw [sampleLEBytes]
    simp [BYTES_PER_SAMPLE, List.length_cons, Nat.mul_succ]
    omega

/-- Claim C10: every frame the Framer hands to the send path contains
exactly samplesPerChunk = 800 samples, hence encodes to exactly 1600 PCM
bytes, strictly below the 32768-byte payload limit, so the
oversized-split branch of the send path is never taken for
Framer-produced chunks (the send path emits the frame as one message). -/
theorem framer_frames_below_limit :
    samplesPerChunk = 800
    ∧ ∀ (buf newBuf : List (List ℚ)) (input frame : List ℚ),
        framerStep samplesPerChunk buf input = (newBuf, some frame) →
        frame.length = samplesPerChunk
        ∧ (convertToPCM16 frame).length = 1600
        ∧ (convertToPCM16 frame).length < MAX_CHUNK_SIZE
        ∧ sendPCMAudioChunkMsgs (convertToPCM16 frame) = [convertToPCM16 frame] := by
  refine ⟨by decide, fun buf newBuf input frame h => ?_⟩
  have hlen := framerStep_some_length samplesPerChunk buf input newBuf frame h
  have hbytes : (convertToPCM16 frame).length = 1600 := by
    rw [convertToPCM16_length, hlen]
    decide
  refine ⟨hlen, hbytes, by rw [hbytes]; decide, ?_⟩
  rw [sendPCMAudioChunkMsgs, if_neg]
  rw [hbytes]
  decide

/-- One full silent frame fed to an empty buffer is emitted whole with an
empty remainder. -/
lemma framerStep_full_frame :
    framerStep samplesPerChunk [] (List.replicate 800 (0 : ℚ))
      = ([], some (List.replicate 800 (0 : ℚ))) := by
  have htot : samplesPerChunk ≤ ((([] : List (List ℚ))
      ++ [List.replicate 800 (0 : ℚ)]).map List.length).sum := by
    rw [framer_total_eq]
    rw [List.length_replicate]
    decide
  rw [framerStep_emit samplesPerChunk [] (List.replicate 800 (0 : ℚ)) htot]
  rw [List.flatten_nil, List.nil_append, List.drop_replicate, List.take_replicate]
  have h1 : 1600 - samplesPerChunk = 800 := by decide
  have h2 : min samplesPerChunk 800 = 800 := by decide
  rw [List.length_replicate]
  norm_num [h2]
  decide

/-- Witness for C10 at the full silent frame. -/
theorem framer_frames_below_limit_witness :
    framerStep samplesPerChunk [] (List.replicate 800 (0 : ℚ))
        = ([], some (List.replicate 800 (0 : ℚ)))
    ∧ ((List.replicate 800 (0 : ℚ)).length = samplesPerChunk
      ∧ (convertToPCM16 (List.replicate 800 (0 : ℚ))).length = 1600
      ∧ (convertToPCM16 (List.replicate 800 (0 : ℚ))).length < MAX_CHUNK_SIZE
      ∧ sendPCMAudioChunkMsgs (convertToPCM16 (List.replicate 800 (0 : ℚ)))
          = [convertToPCM16 (List.replicate 800 (0 : ℚ))]) :=
  ⟨framerStep_full_frame,
   framer_frames_below_limit.2 [] [] (List.replicate 800 (0 : ℚ))
     (List.replicate 800 (0 : ℚ)) framerStep_full_frame⟩

/-! ### Controller characterization lemmas -/

/-- The state after cleanup: recording off, audio graph and microphone
released, socket and session id cleared, reconnects disabled. -/
lemma cleanupStep_fst (s : ServiceState) :
    (cleanupStep s).1
      = { s with shouldReconnect := false, isRecording := false,
                 hasProcessor := false, hasAudioContext := false,
                 audioStream := false, websocket := none, sessionId := none } := by
  rw [cleanupStep]
  cases hw : s.websocket with
  | none => simp [hw]
  | some w => simp [hw]

/-- cleanup sends a last end_session exactly when the socket is open. -/
lemma cleanupStep_snd (s : ServiceState) :
    (cleanupStep s).2
      = if s.websocket = some WsReady.opened
          then [Output.sent ClientMsg.endSession] else [] := by
  rw [cleanupStep]
  cases hw : s.websocket with
  | none => simp [hw]
  | some w => cases w <;> simp [hw]

/-- The deferred status check never changes the state. -/
lemma statusTimerStep_fst (s : ServiceState) : (statusTimerStep s).1 = s := by
  rw [statusTimerStep]
  split <;> rfl

/-- The deferred status check emits stopped exactly when recording is off
and the socket is gone. -/
lemma statusTimerStep_snd (s : ServiceState) :
    (statusTimerStep s).2
      = if s.isRecording = false ∧ s.websocket = none
          then [Output.statusChange "stopped"] else [] := by
  rw [statusTimerStep]
  by_cases h : s.isRecording = false ∧ s.websocket = none
  · rw [if_pos h, if_pos h]
  · rw [if_neg h, if_neg h]

/-- stopRecording plus its timers always ends in the cleaned-up state and
emits: the stopping status when recording was live, end_session twice
when the socket was open (once from stopRecording, once from cleanup),
and finally the stopped status. -/
lemma stopSequence_eq (s : ServiceState) :
    stopSequence s
      = ({ s with shouldReconnect := false, isRecording := false,
                  hasProcessor := false, hasAudioContext := false,
                  audioStream := false, websocket := none, sessionId := none },
         (if s.isRecording = true then [Output.statusChange "stopping"] else [])
           ++ (if s.websocket = some WsReady.opened
                 then [Output.sent ClientMsg.endSession, Output.sent ClientMsg.endSession]
                 else [])
           ++ [Output.statusChange "stopped"]) := by
  rw [stopSequence, stopRecordingStep]
  by_cases hw : s.websocket = some WsReady.opened
  · by_cases hr : s.isRecording = true
    · simp only [hr, if_pos, if_true]
      rw [if_pos (show ({ s with shouldReconnect := false, isRecording := false }
          : ServiceState).websocket = some WsReady.opened from hw), if_pos hw]
      rw [cleanupStep_fst, cleanupStep_snd]
      rw [if_pos (show ({ s with shouldReconnect := false, isRecording := false }
          : ServiceState).websocket = some WsReady.opened from hw)]
      rw [statusTimerStep_fst, statusTimerStep_snd]
      rw [if_pos ⟨rfl, rfl⟩]
      simp [hw]
    · have hr' : s.isRecording = false := by revert hr; cases s.isRecording <;> simp
      simp only [hr', Bool.false_eq_true, if_false]
      rw [if_pos (show ({ s with shouldReconnect := false }
          : ServiceState).websocket = some WsReady.opened from hw), if_pos hw]
      rw [cleanupStep_fst, cleanupStep_snd]
      rw [if_pos (show ({ s with shouldReconnect := false }
          : ServiceState).websocket = some WsReady.opened from hw)]
      rw [statusTimerStep_fst, statusTimerStep_snd]
      rw [if_pos ⟨rfl, rfl⟩]
      simp [hw]
  · by_cases hr : s.isRecording = true
    · simp only [hr, if_pos, if_true]
      rw [if_neg (show ¬ ({ s with shouldReconnect := false, isRecording := false }
          : ServiceState).websocket = some WsReady.opened from hw), if_neg hw]
      rw [cleanupStep_fst, cleanupStep_snd]
      rw [if_neg (show ¬ ({ s with shouldReconnect := false, isRecording := false }
          : ServiceState).websocket = some WsReady.opened from hw)]
      rw [statusTimerStep_fst, statusTimerStep_snd]
      rw [if_pos ⟨rfl, rfl⟩]
      simp [hw]
    · have hr' : s.isRecording = false := by revert hr; cases s.isRecording <;> simp
      simp only [hr', Bool.false_eq_true, if_false]
      rw [if_neg (show ¬ ({ s with shouldReconnect := false }
          : ServiceState).websocket = some WsReady.opened from hw), if_neg hw]
      rw [cleanupStep_fst, cleanupStep_snd]
      rw [if_neg (show ¬ ({ s with shouldReconnect := false }
          : ServiceState).websocket = some WsReady.opened from hw)]
      rw [statusTimerStep_fst, statusTimerStep_snd]
      rw [if_pos ⟨rfl, rfl⟩]
      simp [hw]

/-- startRecording never touches the retry budget before connecting: the
counter is reset to zero for the new session. -/
lemma preConnectState_retryCount (s : ServiceState) :
    (preConnectState s).retryCount = 0 := by
  rw [preConnectState]
  split <;> rfl

/-- The outputs of startRecording are the teardown outputs of the
previous session (when one was active) followed by the recording
status. -/
lemma startRecordingStep_snd (s : ServiceState) :
    (startRecordingStep s).2
      = (if sessionActive s then (stopSequence s).2 else [])
          ++ [Output.statusChange "recording"] := rfl

/-- The state reached by startRecording is the connected one built from
the pre-connect state. -/
lemma startRecordingStep_fst (s : ServiceState) :
    (startRecordingStep s).1 = (attemptConnectionStep (preConnectState s)).1 := rfl

/-- Message handling never touches the retry counter. -/
lemma handleWebSocketMessage_retryCount (s : ServiceState) (data : TranscriptionResponse) :
    (handleWebSocketMessage s data).1.retryCount = s.retryCount := by
  rw [handleWebSocketMessage]
  split_ifs <;> try rfl
  cases data.result with
  | none => rfl
  | some r => by_cases hp : r.isPartial = true <;> simp [hp]

/-- Message handling emits no websocket send at all, in particular no
audio chunk. -/
lemma handleWebSocketMessage_no_audio (s : ServiceState) (data : TranscriptionResponse)
    (payload : List ℕ) :
    Output.sent (ClientMsg.audioChunk payload) ∉ (handleWebSocketMessage s data).2 := by
  intro h
  rw [handleWebSocketMessage] at h
  cases hres : data.result with
  | none => rw [hres] at h; split_ifs at h <;> simp at h
  | some r =>
    rw [hres] at h
    dsimp only at h
    by_cases hp : r.isPartial = true
    · rw [if_pos hp] at h
      split_ifs at h <;> simp at h
    · rw [if_neg hp] at h
      split_ifs at h <;> simp at h

/-- The state after an audio-capture callback: unchanged except for the
accumulation buffer. -/
lemma onAudioProcess_fst (s : ServiceState) (inputData : List ℚ) (inputRate : ℕ) :
    (onAudioProcess s inputData inputRate).1
      = if s.isRecording = false then s
        else { s with audioBuffer :=
            (framerStep samplesPerChunk s.audioBuffer
              (resampleTo16kHz inputData inputRate)).1 } := by
  rw [onAudioProcess]
  split_ifs with h
  · rfl
  · cases hstep : framerStep samplesPerChunk s.audioBuffer
        (resampleTo16kHz inputData inputRate) with
    | mk newBuf emitted => cases emitted <;> simp [hstep]

/-- The sends of an audio callback that fills a frame. -/
lemma onAudioProcess_snd_emit (s : ServiceState) (inputData : List ℚ) (inputRate : ℕ)
    (newBuf : List (List ℚ)) (chunkToSend : List ℚ) (hrec : s.isRecording = true)
    (hstep : framerStep samplesPerChunk s.audioBuffer (resampleTo16kHz inputData inputRate)
      = (newBuf, some chunkToSend)) :
    (onAudioProcess s inputData inputRate).2
      = sendPCMAudioChunk s (convertToPCM16 chunkToSend) := by
  rw [onAudioProcess, if_neg (by rw [hrec]; simp)]
  dsimp only
  rw [hstep]

/-- An audio callback that does not fill a frame sends nothing. -/
lemma onAudioProcess_snd_noemit (s : ServiceState) (inputData : List ℚ) (inputRate : ℕ)
    (newBuf : List (List ℚ)) (hrec : s.isRecording = true)
    (hstep : framerStep samplesPerChunk s.audioBuffer (resampleTo16kHz inputData inputRate)
      = (newBuf, none)) :
    (onAudioProcess s inputData inputRate).2 = [] := by
  rw [onAudioProcess, if_neg (by rw [hrec]; simp)]
  dsimp only
  rw [hstep]

/-- Anything the audio-capture callback emits is an audio-chunk send, and
it only happens while recording with the socket open. -/
lemma onAudioProcess_mem (s : ServiceState) (inputData : List ℚ) (inputRate : ℕ)
    (out : Output) (h : out ∈ (onAudioProcess s inputData inputRate).2) :
    s.isRecording = true ∧ s.websocket = some WsReady.opened
    ∧ ∃ c, out = Output.sent (ClientMsg.audioChunk c) := by
  by_cases hrec : s.isRecording = false
  · rw [onAudioProcess, if_pos hrec] at h
    simp at h
  · have hrec' : s.isRecording = true := by revert hrec; cases s.isRecording <;> simp
    cases hstep : framerStep samplesPerChunk s.audioBuffer
        (resampleTo16kHz inputData inputRate) with
    | mk newBuf emitted =>
      cases emitted with
      | none =>
        rw [onAudioProcess_snd_noemit s inputData inputRate newBuf hrec' hstep] at h
        simp at h
      | some chunkToSend =>
        rw [onAudioProcess_snd_emit s inputData inputRate newBuf chunkToSend hrec' hstep] at h
        rw [sendPCMAudioChunk] at h
        split_ifs at h with hws
        · simp only [List.mem_map] at h
          obtain ⟨c, -, hc⟩ := h
          exact ⟨hrec', hws, c, hc.symm⟩
        · simp at h

/-- Encoding the zero sample yields the two zero bytes. -/
lemma sampleLEBytes_zero : sampleLEBytes 0 = [0, 0] := by
  have h1 : pcm16OfSample 0 = 0 := by
    rw [pcm16OfSample, clamp1]
    norm_num [truncQ]
  rw [sampleLEBytes, h1]
  rfl

/-- Encoding n zero samples yields 2n zero bytes. -/
lemma convertToPCM16_replicate_zero (n : ℕ) :
    convertToPCM16 (List.replicate n 0) = List.replicate (2 * n) 0 := by
  induction n with
  | zero => rfl
  | succ k ih =>
    rw [List.replicate_succ, convertToPCM16, List.flatMap_cons, sampleLEBytes_zero,
      ← convertToPCM16, ih, Nat.mul_succ]
    rw [(by omega : 2 * k + 2 = (2 * k + 1) + 1), List.replicate_succ, List.replicate_succ]
    rfl

/-- A recording state with the socket open and an empty buffer sends one
full silent frame as a single 1600-byte audio chunk. -/
lemma audio_step_full_frame (s : ServiceState) (h1 : s.isRecording = true)
    (h2 : s.websocket = some WsReady.opened) (h3 : s.audioBuffer = []) :
    step s (Event.audio (List.replicate 800 0) SAMPLE_RATE)
      = ({ s with audioBuffer := [] },
         [Output.sent (ClientMsg.audioChunk (List.replicate 1600 0))]) := by
  show onAudioProcess s (List.replicate 800 0) SAMPLE_RATE = _
  have hres : resampleTo16kHz (List.replicate 800 0) SAMPLE_RATE = List.replicate 800 0 := by
    rw [resampleTo16kHz, if_pos rfl]
  have hstep : framerStep samplesPerChunk s.audioBuffer
      (resampleTo16kHz (List.replicate 800 0) SAMPLE_RATE)
        = ([], some (List.replicate 800 (0 : ℚ))) := by
    rw [hres, h3, framerStep_full_frame]
  have hfst := onAudioProcess_fst s (List.replicate 800 0) SAMPLE_RATE
  rw [if_neg (by rw [h1]; simp), hstep] at hfst
  have hsnd := onAudioProcess_snd_emit s (List.replicate 800 0) SAMPLE_RATE []
    (List.replicate 800 (0 : ℚ)) h1 hstep
  have hsend : sendPCMAudioChunk s (convertToPCM16 (List.replicate 800 (0 : ℚ)))
      = [Output.sent (ClientMsg.audioChunk (List.replicate 1600 0))] := by
    rw [convertToPCM16_replicate_zero]
    rw [sendPCMAudioChunk, if_pos h2, sendPCMAudioChunkMsgs, if_neg]
    · rfl
    · rw [List.length_replicate]
      decide
  rw [Prod.ext_iff]
  refine ⟨hfst, ?_⟩
  rw [hsnd, hsend]

/-! ### Claim C1: final-result delivery (corrected) -/

/-- Counterexample to C1 as stated: the backend retransmits the same
final result for the utterance "xin chao" and the controller delivers it
to the final-result callback a second time, because
handleWebSocketMessage keeps no per-utterance state and ignores nothing.
The claim says the second delivery never happens. -/
theorem duplicate_final_delivered_cex :
    ((runEvents recState [Event.wsMessage finalMsg, Event.wsMessage finalMsg]).2.filter
        isFinalDelivery).length = 2 := by
  decide

/-- Claim C1 (amended): a transcription_result message with
is_partial = false routes to the final-result callback exactly once PER
MESSAGE; the code performs no per-utterance deduplication, so a
retransmitted final for the same utterance is delivered again rather
than ignored. -/
theorem final_result_per_message (s : ServiceState) (result : TranscriptionResultM)
    (h : result.isPartial = false) :
    (handleWebSocketMessage s { type := "transcription_result", result := some result }).2
      = [Output.finalResult result] := by
  rw [handleWebSocketMessage]
  rw [if_neg (by intro hc; simp at hc), if_pos rfl]
  dsimp only
  rw [if_neg (by rw [h]; simp)]

/-- Witness for C1 (amended) at a concrete final result. -/
theorem final_result_per_message_witness :
    ({ transcript := "xin chao", isPartial := false } : TranscriptionResultM).isPartial = false
    ∧ (handleWebSocketMessage initState
        { type := "transcription_result",
          result := some { transcript := "xin chao", isPartial := false } }).2
      = [Output.finalResult { transcript := "xin chao", isPartial := false }] :=
  ⟨rfl, final_result_per_message initState
    { transcript := "xin chao", isPartial := false } rfl⟩

/-! ### Claim C2: audio before session acknowledgement (corrected) -/

/-- Counterexample to C2 as stated: starting fresh, the socket opens, one
full frame of audio arrives, and the audio chunk goes out although the
backend never sent session_started (the trace holds no inbound message
and the session id is still unset).  The code gates sends only on the
socket being open. -/
theorem audio_before_ack_cex :
    Output.sent (ClientMsg.audioChunk (List.replicate 1600 0))
        ∈ (runEvents initState noAckTrace).2
    ∧ (runEvents initState noAckTrace).1.sessionId = none
    ∧ noAckTrace.any mentionsSessionStarted = false := by
  have h1 : step initState Event.startCall
      = (connState, [Output.statusChange "recording"]) := rfl
  have h2 : step connState (Event.wsOpen {})
      = (openState, [Output.sent (ClientMsg.config "vi-VN" 16000 true)]) := rfl
  have h3 := audio_step_full_frame openState rfl rfl rfl
  have hrun : runEvents initState noAckTrace
      = ({ openState with audioBuffer := [] },
         [Output.statusChange "recording"]
           ++ ([Output.sent (ClientMsg.config "vi-VN" 16000 true)]
             ++ ([Output.sent (ClientMsg.audioChunk (List.replicate 1600 0))] ++ []))) := by
    rw [noAckTrace, runEvents, h1, runEvents, h2, runEvents, h3, runEvents]
  rw [hrun]
  refine ⟨?_, rfl, rfl⟩
  exact List.mem_append_right _ (List.mem_append_right _ (List.mem_append_left _
    (List.mem_singleton_self _)))

/-- Claim C2 (amended): an audio_chunk message is emitted by a transition
only when the websocket is open and recording is live at that point; the
code does not wait for the session_started acknowledgement, so receipt of
session_started is not part of the guard. -/
theorem audio_sent_only_when_open (s : ServiceState) (e : Event) (payload : List ℕ)
    (h : Output.sent (ClientMsg.audioChunk payload) ∈ (step s e).2) :
    s.websocket = some WsReady.opened ∧ s.isRecording = true := by
  cases e with
  | audio inputData inputRate =>
    obtain ⟨hrec, hws, -⟩ := onAudioProcess_mem s inputData inputRate _ h
    exact ⟨hws, hrec⟩
  | wsMessage data => exact absurd h (handleWebSocketMessage_no_audio s data payload)
  | startCall =>
    exfalso
    have h2 : Output.sent (ClientMsg.audioChunk payload) ∈ (startRecordingStep s).2 := h
    rw [startRecordingStep_snd] at h2
    rcases List.mem_append.mp h2 with h3 | h3
    · split_ifs at h3 with hact
      · rw [stopSequence_eq] at h3
        split_ifs at h3 <;> simp at h3
      · simp at h3
    · simp at h3
  | stopCall =>
    exfalso
    have h2 : Output.sent (ClientMsg.audioChunk payload) ∈ (stopSequence s).2 := h
    rw [stopSequence_eq] at h2
    split_ifs at h2 <;> simp at h2
  | connect =>
    exfalso
    have h2 : Output.sent (ClientMsg.audioChunk payload)
        ∈ (attemptConnectionStep s).2 := h
    simp [attemptConnectionStep] at h2
  | connectFail =>
    exfalso
    have h2 := h
    rw [step] at h2
    split_ifs at h2 <;> simp at h2
  | wsOpen config =>
    exfalso
    have h2 : Output.sent (ClientMsg.audioChunk payload) ∈ (onOpenStep s config).2 := h
    simp [onOpenStep] at h2
  | wsError =>
    exfalso
    have h2 : Output.sent (ClientMsg.audioChunk payload) ∈ (onErrorStep s).2 := h
    rw [onErrorStep] at h2
    split_ifs at h2 <;> simp at h2
  | wsClose code =>
    exfalso
    have h2 : Output.sent (ClientMsg.audioChunk payload) ∈ (onCloseStep s code).2 := h
    rw [onCloseStep] at h2
    split_ifs at h2 <;> first
      | simp at h2
      | (rw [cleanupStep_snd] at h2; split_ifs at h2 <;> simp at h2)
  | cleanupTimer =>
    exfalso
    have h2 : Output.sent (ClientMsg.audioChunk payload) ∈ (cleanupStep s).2 := h
    rw [cleanupStep_snd] at h2
    split_ifs at h2 <;> simp at h2
  | statusTimer =>
    exfalso
    have h2 : Output.sent (ClientMsg.audioChunk payload) ∈ (statusTimerStep s).2 := h
    rw [statusTimerStep_snd] at h2
    split_ifs at h2 <;> simp at h2

/-- Witness for C2 (amended) at the recording state and a full frame. -/
theorem audio_sent_only_when_open_witness :
    Output.sent (ClientMsg.audioChunk (List.replicate 1600 0))
        ∈ (step recState (Event.audio (List.replicate 800 0) SAMPLE_RATE)).2
    ∧ (recState.websocket = some WsReady.opened ∧ recState.isRecording = true) := by
  have hm : Output.sent (ClientMsg.audioChunk (List.replicate 1600 0))
      ∈ (step recState (Event.audio (List.replicate 800 0) SAMPLE_RATE)).2 := by
    rw [audio_step_full_frame recState rfl rfl rfl]
    exact List.mem_singleton_self _
  exact ⟨hm, audio_sent_only_when_open recState _ _ hm⟩

/-! ### Claim C7: stop always reaches stopped -/

/-- Claim C7: calling stop() while recording always reaches the stopped
status once the grace-period timers fire, with the microphone, audio
graph and channel released — no inbound backend message (in particular
no session_ended) is involved anywhere in the stop sequence. -/
theorem stop_reaches_stopped (s : ServiceState) (h : s.isRecording = true) :
    (stopSequence s).1.isRecording = false
    ∧ (stopSequence s).1.websocket = none
    ∧ (stopSequence s).1.audioStream = false
    ∧ (stopSequence s).1.hasProcessor = false
    ∧ (stopSequence s).1.hasAudioContext = false
    ∧ Output.statusChange "stopping" ∈ (stopSequence s).2
    ∧ Output.statusChange "stopped" ∈ (stopSequence s).2 := by
  rw [stopSequence_eq]
  refine ⟨rfl, rfl, rfl, rfl, rfl, ?_, ?_⟩
  · rw [if_pos h]
    exact List.mem_append_left _ (List.mem_append_left _ (List.mem_singleton_self _))
  · exact List.mem_append_right _ (List.mem_singleton_self _)

/-- Witness for C7 at the concrete recording state. -/
theorem stop_reaches_stopped_witness :
    recState.isRecording = true
    ∧ ((stopSequence recState).1.isRecording = false
      ∧ (stopSequence recState).1.websocket = none
      ∧ (stopSequence recState).1.audioStream = false
      ∧ (stopSequence recState).1.hasProcessor = false
      ∧ (stopSequence recState).1.hasAudioContext = false
      ∧ Output.statusChange "stopping" ∈ (stopSequence recState).2
      ∧ Output.statusChange "stopped" ∈ (stopSequence recState).2) :=
  ⟨rfl, stop_reaches_stopped recState rfl⟩

/-! ### Claim C9: at most one active session -/

/-- Claim C9: starting while a previous session is active (recording,
socket present, or microphone held) runs the full teardown first: the
state from which the new connection is attempted has no socket, no
microphone and no live recording; and the teardown timers (200 ms
cleanup plus 100 ms status) complete strictly inside the 1000 ms wait
startRecording inserts before connecting. -/
theorem single_active_session (s : ServiceState) (h : sessionActive s = true) :
    (preConnectState s).websocket = none
    ∧ (preConnectState s).audioStream = false
    ∧ (preConnectState s).isRecording = false
    ∧ STOP_CLEANUP_DELAY_MS + STATUS_DELAY_MS < NEW_SESSION_WAIT_MS := by
  rw [preConnectState, if_pos h, stopSequence_eq]
  exact ⟨rfl, rfl, rfl, by decide⟩

/-- Witness for C9 at the concrete recording state. -/
theorem single_active_session_witness :
    sessionActive recState = true
    ∧ ((preConnectState recState).websocket = none
      ∧ (preConnectState recState).audioStream = false
      ∧ (preConnectState recState).isRecording = false
      ∧ STOP_CLEANUP_DELAY_MS + STATUS_DELAY_MS < NEW_SESSION_WAIT_MS) :=
  ⟨rfl, single_active_session recState rfl⟩

/-! ### Claim C8: bounded reconnection retry -/

/-- No transition pushes the retry counter past the budget. -/
lemma step_retryCount_le (s : ServiceState) (e : Event)
    (h : s.retryCount ≤ maxRetries) : (step s e).1.retryCount ≤ maxRetries := by
  cases e with
  | startCall =>
    have : (step s Event.startCall).1.retryCount = 0 := by
      rw [show (step s Event.startCall).1 = (startRecordingStep s).1 from rfl,
        startRecordingStep_fst]
      rw [show (attemptConnectionStep (preConnectState s)).1.retryCount
          = (preConnectState s).retryCount from rfl, preConnectState_retryCount]
    omega
  | connect => exact h
  | connectFail =>
    have h2 : step s Event.connectFail
        = if s.retryCount < maxRetries
            then ({ s with retryCount := s.retryCount + 1 }, [])
            else (s, [Output.errorCb "Failed to start recording: Unknown error"]) := rfl
    rw [h2]
    split_ifs with hc
    · show s.retryCount + 1 ≤ maxRetries
      omega
    · exact h
  | wsOpen config => exact h
  | wsMessage data =>
    rw [show (step s (Event.wsMessage data)).1 = (handleWebSocketMessage s data).1 from rfl,
      handleWebSocketMessage_retryCount]
    exact h
  | wsError =>
    rw [show (step s Event.wsError).1 = (onErrorStep s).1 from rfl, onErrorStep]
    split_ifs with hc
    · show s.retryCount + 1 ≤ maxRetries
      obtain ⟨-, -, hlt⟩ := hc
      omega
    · exact h
  | wsClose code =>
    rw [show (step s (Event.wsClose code)).1 = (onCloseStep s code).1 from rfl, onCloseStep]
    split_ifs with hc1 hc2
    · rw [cleanupStep_fst]
      exact h
    · show s.retryCount + 1 ≤ maxRetries
      obtain ⟨-, -, hlt⟩ := hc2
      omega
    · rw [cleanupStep_fst]
      exact h
  | audio inputData inputRate =>
    rw [show (step s (Event.audio inputData inputRate)).1
        = (onAudioProcess s inputData inputRate).1 from rfl, onAudioProcess_fst]
    split_ifs <;> exact h
  | stopCall =>
    rw [show (step s Event.stopCall).1 = (stopSequence s).1 from rfl, stopSequence_eq]
    exact h
  | cleanupTimer =>
    rw [show (step s Event.cleanupTimer).1 = (cleanupStep s).1 from rfl, cleanupStep_fst]
    exact h
  | statusTimer =>
    rw [show (step s Event.statusTimer).1 = (statusTimerStep s).1 from rfl,
      statusTimerStep_fst]
    exact h

/-- The retry bound is preserved along every event sequence. -/
lemma runEvents_retryCount_le (es : List Event) :
    ∀ s : ServiceState, s.retryCount ≤ maxRetries →
      (runEvents s es).1.retryCount ≤ maxRetries := by
  induction es with
  | nil => intro s h; exact h
  | cons e es ih =>
    intro s h
    rw [runEvents]
    exact ih (step s e).1 (step_retryCount_le s e h)

/-- Claim C8: while recording with teardown not begun, a channel error or
abnormal close with budget remaining retries, incrementing the retry
counter by exactly 1; the counter never exceeds the fixed budget
maxRetries = 1 along any event sequence that starts within budget; and
once the budget is spent, an error followed by the abnormal close and the
status timer surfaces the connection-failure message, releases the
microphone, drops the channel and reaches the stopped status. -/
theorem bounded_retry :
    (∀ (s : ServiceState) (es : List Event),
        s.retryCount ≤ maxRetries → (runEvents s es).1.retryCount ≤ maxRetries)
    ∧ (∀ s : ServiceState,
        s.shouldReconnect = true → s.isRecording = true → s.retryCount < maxRetries →
          (step s Event.wsError).1.retryCount = s.retryCount + 1
          ∧ (step s (Event.wsClose 1006)).1.retryCount = s.retryCount + 1)
    ∧ (∀ s : ServiceState, maxRetries ≤ s.retryCount →
        Output.errorCb "Connection error occurred. Please check your network and try again."
            ∈ (runEvents s [Event.wsError, Event.wsClose 1006, Event.statusTimer]).2
        ∧ (runEvents s [Event.wsError, Event.wsClose 1006, Event.statusTimer]).1.audioStream
            = false
        ∧ (runEvents s [Event.wsError, Event.wsClose 1006, Event.statusTimer]).1.websocket
            = none
        ∧ Output.statusChange "stopped"
            ∈ (runEvents s [Event.wsError, Event.wsClose 1006, Event.statusTimer]).2) := by
  refine ⟨fun s es h => runEvents_retryCount_le es s h, fun s h1 h2 h3 => ⟨?_, ?_⟩,
    fun s hex => ?_⟩
  · rw [show (step s Event.wsError).1 = (onErrorStep s).1 from rfl, onErrorStep,
      if_pos ⟨h1, h2, h3⟩]
  · rw [show (step s (Event.wsClose 1006)).1 = (onCloseStep s 1006).1 from rfl, onCloseStep,
      if_neg (by norm_num), if_pos ⟨h1, h2, h3⟩]
  · have hguard : ¬ (s.shouldReconnect = true ∧ s.isRecording = true
        ∧ s.retryCount < maxRetries) := by
      rintro ⟨-, -, hlt⟩
      omega
    have h1 : step s Event.wsError
        = (s, [Output.errorCb
            "Connection error occurred. Please check your network and try again."]) := by
      rw [show step s Event.wsError = onErrorStep s from rfl, onErrorStep, if_neg hguard]
    have h2 : step s (Event.wsClose 1006) = cleanupStep s := by
      rw [show step s (Event.wsClose 1006) = onCloseStep s 1006 from rfl, onCloseStep,
        if_neg (by norm_num), if_neg hguard]
    have h3 : step (cleanupStep s).1 Event.statusTimer
        = ((cleanupStep s).1, [Output.statusChange "stopped"]) := by
      rw [show step (cleanupStep s).1 Event.statusTimer
          = statusTimerStep (cleanupStep s).1 from rfl, statusTimerStep,
        if_pos ⟨by rw [cleanupStep_fst], by rw [cleanupStep_fst]⟩]
    have hrun : runEvents s [Event.wsError, Event.wsClose 1006, Event.statusTimer]
        = ((cleanupStep s).1,
           [Output.errorCb
              "Connection error occurred. Please check your network and try again."]
             ++ ((cleanupStep s).2 ++ ([Output.statusChange "stopped"] ++ []))) := by
      rw [runEvents, h1, runEvents, h2, runEvents, h3, runEvents]
    rw [hrun]
    refine ⟨List.mem_append_left _ (List.mem_singleton_self _),
      by rw [cleanupStep_fst], by rw [cleanupStep_fst], ?_⟩
    exact List.mem_append_right _ (List.mem_append_right _ (List.mem_append_left _
      (List.mem_singleton_self _)))

/-- Witness for C8: the bound from the fresh state over the empty trace,
one concrete retry increment from the recording state, and the
exhaustion scenario from the spent-budget state. -/
theorem bounded_retry_witness :
    (initState.retryCount ≤ maxRetries
      ∧ (runEvents initState []).1.retryCount ≤ maxRetries)
    ∧ (recState.shouldReconnect = true ∧ recState.isRecording = true
      ∧ recState.retryCount < maxRetries
      ∧ (step recState Event.wsError).1.retryCount = recState.retryCount + 1
      ∧ (step recState (Event.wsClose 1006)).1.retryCount = recState.retryCount + 1)
    ∧ (maxRetries ≤ exhaustedState.retryCount
      ∧ Output.errorCb "Connection error occurred. Please check your network and try again."
          ∈ (runEvents exhaustedState
              [Event.wsError, Event.wsClose 1006, Event.statusTimer]).2
      ∧ (runEvents exhaustedState
          [Event.wsError, Event.wsClose 1006, Event.statusTimer]).1.audioStream = false
      ∧ (runEvents exhaustedState
          [Event.wsError, Event.wsClose 1006, Event.statusTimer]).1.websocket = none
      ∧ Output.statusChange "stopped"
          ∈ (runEvents exhaustedState
              [Event.wsError, Event.wsClose 1006, Event.statusTimer]).2) := by
  refine ⟨⟨by decide, bounded_retry.1 initState [] (by decide)⟩, ?_, ?_⟩
  · obtain ⟨w1, w2⟩ := bounded_retry.2.1 recState rfl rfl (by decide)
    exact ⟨rfl, rfl, by decide, w1, w2⟩
  · obtain ⟨w1, w2, w3, w4⟩ := bounded_retry.2.2 exhaustedState (by decide)
    exact ⟨by decide, w1, w2, w3, w4⟩

end Transcription
